import Mathlib

/-!
Verification of the pattern-based lint rules of this repository
(collapsible_if, needless_continue, missing_const_for_fn) against its
natural-language specification.  Source text is modelled as `List Char`;
the AST fragment the lints inspect is a shallow embedding of the
`syntax::ast` types the code matches on.
-/

namespace Clippy

/-- The closing-brace character, written by code point to keep source text
readable in lists of characters. -/
def rbrace : Char := Char.ofNat 125

/-- The opening-brace character. -/
def lbrace : Char := Char.ofNat 123

/-! ## Text reconstruction (needless_continue.rs, lines 333-377)

`erode_from_back` in the source pops characters off the end of the string:
first until a closing brace has been popped (or the string is exhausted),
then whitespace until a non-whitespace character is popped, which is pushed
back.  Popping from the end of a string is consuming the head of the
reversed character list, so the two loops become `eatTillBrace` and
`eatTrailingWs` on the reversed list. -/

/-- First loop of `erode_from_back` on the reversed character list: drop
characters until a closing brace has been dropped, or the whole list if
there is none. -/
def eatTillBrace : List Char → List Char
  | [] => []
  | c :: cs => if c = rbrace then cs else eatTillBrace cs

/-- Second loop of `erode_from_back`: pop whitespace characters; the first
non-whitespace character popped is pushed back and the loop stops. -/
def eatTrailingWs : List Char → List Char
  | [] => []
  | c :: cs => if c.isWhitespace then eatTrailingWs cs else c :: cs

/-- `erode_from_back` (needless_continue.rs lines 333-343): eats at `s` from
the end till a closing brace is encountered, then continues eating till a
non-whitespace character is found. -/
def erode_from_back (s : List Char) : List Char :=
  (eatTrailingWs (eatTillBrace s.reverse)).reverse

/-- `erode_from_front` (needless_continue.rs lines 363-369): skip leading
whitespace, then leading opening braces, then leading newlines. -/
def erode_from_front (s : List Char) : List Char :=
  ((s.dropWhile (fun c => c.isWhitespace)).dropWhile
      (fun c => c = lbrace)).dropWhile (fun c => c = Char.ofNat 10)

/-- `erode_block` (needless_continue.rs lines 375-377). -/
def erode_block (s : List Char) : List Char :=
  erode_from_back (erode_from_front s)

/-- The concrete erosion input of the spec, the character list of the
string consisting of an opening brace, a space, the call a(), a semicolon,
a space, the call b(), a semicolon, a space and a closing brace. -/
def C1input : List Char :=
  ['\x7b', ' ', 'a', '(', ')', ';', ' ', 'b', '(', ')', ';', ' ', '\x7d']

/-- The erosion output the spec expects, the character list of the two
calls with their semicolons and the single separating space. -/
def C1output : List Char :=
  ['a', '(', ')', ';', ' ', 'b', '(', ')', ';']

/-! ## The AST fragment the lints match on

A shallow embedding of the part of `syntax::ast` that the patterns of
collapsible_if.rs and needless_continue.rs inspect.  A span carries the
host-supplied data the rules query about it: whether it originates from
macro expansion, its hygiene context (opaque, equality-comparable only)
and the source text the span-to-text lookup returns for it. -/

structure Span where
  fromExpansion : Bool
  ctxt : Nat
  text : List Char
deriving DecidableEq, Repr

structure Label where
  ident : String
deriving DecidableEq, Repr

mutual

inductive Expr : Type where
  | mk : ExprKind → Span → Expr
deriving Repr

inductive ExprKind : Type where
  | ifE : Expr → Block → Option Expr → ExprKind
  | blockE : Block → Option Label → ExprKind
  | loopE : Block → Option Label → ExprKind
  | whileE : Expr → Block → Option Label → ExprKind
  | forLoopE : Expr → Block → Option Label → ExprKind
  | continueE : Option Label → ExprKind
  | letE : ExprKind
  | otherE : ExprKind
deriving Repr

inductive Stmt : Type where
  | exprS : Expr → Stmt
  | semiS : Expr → Stmt
  | otherS : Stmt
deriving Repr

inductive Block : Type where
  | mk : List Stmt → Span → Block
deriving Repr

end

def Expr.node : Expr → ExprKind
  | .mk k _ => k

def Expr.span : Expr → Span
  | .mk _ s => s

def Block.stmts : Block → List Stmt
  | .mk l _ => l

def Block.span : Block → Span
  | .mk _ s => s

/-! ## The sibling-sequence matcher

Modelled from the spec: the pattern-matching engine itself is not among
the provided sources (only the `pattern!` invocations that compile to it
are), so its sibling-sequence search is taken from the specification.  For
a sequence pattern of the shape ZeroOrMore(Wildcard), Anchor,
Capture(ZeroOrMore(Wildcard)), the engine scans the sibling list for the
earliest index at which the anchor matches, captures everything after that
index, and fails only when no sibling satisfies the anchor.  The anchor is
represented as an extraction function returning the anchor's own captures,
so that anchor satisfaction is the extraction returning a value. -/
def seqSearch {α β : Type} (f : α → Option β) : List α → Option (β × List α)
  | [] => none
  | x :: xs =>
    match f x with
    | some b => some (b, xs)
    | none => seqSearch f xs

/-- The `expr_or_semi` pattern function of pattern_func_lib.rs: matches a
statement that is an expression statement or a semicolon-terminated
expression statement, yielding the inner expression. -/
def expr_or_semi : Stmt → Option Expr
  | .exprS e => some e
  | .semiS e => some e
  | .otherS => none

/-- The `some_loop` pattern function of pattern_func_lib.rs: matches an
unconditional loop, a for loop or a while loop, yielding the loop body
block and the optional loop label. -/
def some_loop (e : Expr) : Option (Block × Option Label) :=
  match e.node with
  | .loopE body label => some (body, label)
  | .forLoopE _ body label => some (body, label)
  | .whileE _ body label => some (body, label)
  | _ => none

/-! ## needless_continue.rs -/

/-- Captures of the anchor statement of `needless_continue_pattern_1`
(needless_continue.rs lines 182-196): an if statement whose else branch is
a block expression whose block's statement list starts with a possibly
labeled continue. -/
structure P1Anchor where
  if_expr : Expr
  if_cond : Expr
  if_block : Block
  else_expr : Expr
  continue_label : Option Label
deriving Repr

/-- The anchor sub-pattern of `needless_continue_pattern_1`:
expr_or_semi(If(cond, block, Block_(Block(expr_or_semi(Continue) any)))). -/
def p1Anchor (s : Stmt) : Option P1Anchor :=
  match expr_or_semi s with
  | none => none
  | some e =>
    match e.node with
    | .ifE if_cond if_block (some else_expr) =>
      match else_expr.node with
      | .blockE b _ =>
        match b.stmts with
        | s0 :: _ =>
          match expr_or_semi s0 with
          | some e0 =>
            match e0.node with
            | .continueE continue_label =>
              some ⟨e, if_cond, if_block, else_expr, continue_label⟩
            | _ => none
          | none => none
        | [] => none
      | _ => none
    | _ => none

/-- The full capture set of `needless_continue_pattern_1`. -/
structure P1Result where
  if_expr : Expr
  if_cond : Expr
  if_block : Block
  else_expr : Expr
  continue_label : Option Label
  region_c : List Stmt
  loop_label : Option Label
deriving Repr

/-- `needless_continue_pattern_1` (needless_continue.rs lines 182-196): a
loop whose body contains, at the earliest matching position, an if/else
statement whose else block starts with a continue; the statements after it
are captured as region_c. -/
def needless_continue_pattern_1 (e : Expr) : Option P1Result :=
  match some_loop e with
  | none => none
  | some (body, loop_label) =>
    match seqSearch p1Anchor body.stmts with
    | none => none
    | some (a, region_c) =>
      some ⟨a.if_expr, a.if_cond, a.if_block, a.else_expr,
        a.continue_label, region_c, loop_label⟩

/-- Captures of the anchor statement of `needless_continue_pattern_2`
(needless_continue.rs lines 199-213): an if statement whose then block
starts with a possibly labeled continue and that has an else branch. -/
structure P2Anchor where
  if_expr : Expr
  if_cond : Expr
  if_block : Block
  else_expr : Expr
  continue_label : Option Label
deriving Repr

/-- The anchor sub-pattern of `needless_continue_pattern_2`:
expr_or_semi(If(cond, Block(expr_or_semi(Continue) any), else)). -/
def p2Anchor (s : Stmt) : Option P2Anchor :=
  match expr_or_semi s with
  | none => none
  | some e =>
    match e.node with
    | .ifE if_cond if_block (some else_expr) =>
      match if_block.stmts with
      | s0 :: _ =>
        match expr_or_semi s0 with
        | some e0 =>
          match e0.node with
          | .continueE continue_label =>
            some ⟨e, if_cond, if_block, else_expr, continue_label⟩
          | _ => none
        | none => none
      | [] => none
    | _ => none

/-- The full capture set of `needless_continue_pattern_2`. -/
structure P2Result where
  if_expr : Expr
  if_cond : Expr
  if_block : Block
  else_expr : Expr
  continue_label : Option Label
  region_c : List Stmt
  loop_label : Option Label
deriving Repr

/-- `needless_continue_pattern_2` (needless_continue.rs lines 199-213): a
loop whose body contains, at the earliest matching position, an if/else
statement whose then block starts with a continue. -/
def needless_continue_pattern_2 (e : Expr) : Option P2Result :=
  match some_loop e with
  | none => none
  | some (body, loop_label) =>
    match seqSearch p2Anchor body.stmts with
    | none => none
    | some (a, region_c) =>
      some ⟨a.if_expr, a.if_cond, a.if_block, a.else_expr,
        a.continue_label, region_c, loop_label⟩

/-- `compare_labels` (needless_continue.rs lines 303-312): if the continue
has a label, check it matches the label of the loop. -/
def compare_labels : Option Label → Option Label → Bool
  | _, none => true
  | none, _ => false
  | some x, some y => x.ident == y.ident

inductive Applicability : Type where
  | MachineApplicable
  | Advisory
deriving DecidableEq, Repr

/-- A diagnostic as the rules emit it: the span complained about, the lint
message, and whether the attached suggestion may be applied automatically.
span_help_and_lint attaches the suggestion as help text only, so the
diagnostics of needless_continue are advisory; the suggestion text itself
(built with snippet, erode_block and trim_multiline) is host-rendered and
not part of the model. -/
structure Diagnostic where
  span : Span
  message : String
  applicability : Applicability
deriving DecidableEq, Repr

def MSG_REDUNDANT_ELSE_BLOCK : String := "This else block is redundant.\n"

def MSG_ELSE_BLOCK_NOT_NEEDED : String :=
  "There is no need for an explicit `else` block for this `if` expression\n"

/-- `check_and_warn_in_else_block` (needless_continue.rs lines 226-268):
match pattern 1, compare labels, and emit an advisory lint on the span of
the else expression. -/
def check_and_warn_in_else_block (e : Expr) : Option Diagnostic :=
  match needless_continue_pattern_1 e with
  | some res =>
    if compare_labels res.loop_label res.continue_label then
      some ⟨res.else_expr.span, MSG_REDUNDANT_ELSE_BLOCK, .Advisory⟩
    else none
  | none => none

/-- `check_and_warn_in_then_block` (needless_continue.rs lines 270-300):
match pattern 2, compare labels, and emit an advisory lint on the span of
the whole if expression. -/
def check_and_warn_in_then_block (e : Expr) : Option Diagnostic :=
  match needless_continue_pattern_2 e with
  | some res =>
    if compare_labels res.loop_label res.continue_label then
      some ⟨res.if_expr.span, MSG_ELSE_BLOCK_NOT_NEEDED, .Advisory⟩
    else none
  | none => none

/-- `NeedlessContinue::check_expr` (needless_continue.rs lines 123-130):
when the visited expression's span does not come from expansion, run both
shape checks; the diagnostics they emit, in order. -/
def NeedlessContinue.check_expr (e : Expr) : List Diagnostic :=
  if e.span.fromExpansion then []
  else
    (check_and_warn_in_else_block e).toList ++
      (check_and_warn_in_then_block e).toList

/-! ## collapsible_if.rs -/

/-- The capture set of `pat_if_without_else` (collapsible_if.rs lines
78-87): outer condition, inner condition, inner then block, the inner if
expression and the outer then block. -/
structure PatIfWithoutElseResult where
  check : Expr
  check_inner : Expr
  content : Block
  inner : Expr
  then_ : Block
deriving Repr

/-- `pat_if_without_else` (collapsible_if.rs lines 78-87): an if with no
else whose then block's sole statement is an inner if with no else. -/
def pat_if_without_else (e : Expr) : Option PatIfWithoutElseResult :=
  match e.node with
  | .ifE check thenB none =>
    match thenB.stmts with
    | [s] =>
      match expr_or_semi s with
      | some inner =>
        match inner.node with
        | .ifE check_inner content none =>
          some ⟨check, check_inner, content, inner, thenB⟩
        | _ => none
      | none => none
    | _ => none
  | _ => none

/-- The capture set of `pat_if_else` (collapsible_if.rs lines 89-100): the
inner if expression, the else block and the else block expression. -/
structure PatIfElseResult where
  else_ : Expr
  block_inner : Block
  block : Expr
deriving Repr

/-- `pat_if_else` (collapsible_if.rs lines 89-100): an if whose else branch
is a block expression whose block's sole statement is an if (with or
without its own else). -/
def pat_if_else (e : Expr) : Option PatIfElseResult :=
  match e.node with
  | .ifE _ _ (some be) =>
    match be.node with
    | .blockE b _ =>
      match b.stmts with
      | [s] =>
        match expr_or_semi s with
        | some inner =>
          match inner.node with
          | .ifE _ _ _ => some ⟨inner, b, be⟩
          | _ => none
        | none => none
      | _ => none
    | _ => none
  | _ => none

/-- The span-to-text lookup `snippet_block` for a block, opaque to the
engine: the model stores the looked-up text on the span. -/
def snippet_block (b : Block) : List Char := b.span.text

/-- `block_starts_with_comment` (collapsible_if.rs lines 148-154): trim all
opening braces and whitespace, then check whether the text starts with a
line or block comment marker. -/
def block_starts_with_comment (b : Block) : Bool :=
  let trimmed :=
    (snippet_block b).dropWhile fun c => c.isWhitespace || c == lbrace
  List.isPrefixOf ['/', '/'] trimmed || List.isPrefixOf ['/', '*'] trimmed

/-- Whether an expression is a pattern-binding (let) conditional, the test
of collapsible_if.rs lines 110-111. -/
def isLetExpr (e : Expr) : Bool :=
  match e.node with
  | .letE => true
  | _ => false

def MSG_COLLAPSIBLE_IF : String := "this if statement can be collapsed"

def MSG_COLLAPSIBLE_ELSE : String :=
  "this `else \x7b if .. \x7d` block can be collapsed"

/-- The else-contains-if branch of `CollapsibleIf::check_expr`
(collapsible_if.rs lines 131-144): match pat_if_else, reject a comment at
the start of the else block or an inner if span from expansion, and emit a
machine-applicable suggestion on the else block span. -/
def CollapsibleIf.checkElseBranch (e : Expr) : List Diagnostic :=
  match pat_if_else e with
  | some result =>
    if !block_starts_with_comment result.block_inner &&
        !result.else_.span.fromExpansion then
      [⟨result.block.span, MSG_COLLAPSIBLE_ELSE, .MachineApplicable⟩]
    else []
  | none => []

/-- `CollapsibleIf::check_expr` (collapsible_if.rs lines 102-146): skip
expressions from expansion; on the no-else nesting shape, return with
nothing when either condition is a let conditional, otherwise emit a
machine-applicable suggestion when the outer then block does not start
with a comment and the hygiene contexts agree; then handle the
else-contains-if shape. -/
def CollapsibleIf.check_expr (e : Expr) : List Diagnostic :=
  if e.span.fromExpansion then []
  else
    match pat_if_without_else e with
    | some result =>
      if isLetExpr result.check then []
      else if isLetExpr result.check_inner then []
      else
        (if !block_starts_with_comment result.then_ &&
            (e.span.ctxt == result.inner.span.ctxt) then
          [⟨e.span, MSG_COLLAPSIBLE_IF, .MachineApplicable⟩]
        else []) ++ CollapsibleIf.checkElseBranch e
    | none => CollapsibleIf.checkElseBranch e

/-! ## missing_const_for_fn.rs -/

inductive Constness : Type where
  | Const
  | NotConst
deriving DecidableEq, Repr

structure FnHeader where
  constness : Constness
deriving DecidableEq, Repr

/-- `already_const` (missing_const_for_fn.rs lines 131-133). -/
def already_const (header : FnHeader) : Bool :=
  header.constness == Constness.Const

/-- The function kinds `check_fn` distinguishes: a free item function with
its header, a method with its signature header, and the remaining kinds
(closures), which the wildcard arm of the match returns on. -/
inductive FnKind : Type where
  | ItemFn : FnHeader → FnKind
  | Method : FnHeader → FnKind
  | Closure : FnKind
deriving DecidableEq, Repr

/-- The parent item of a function, as far as `is_trait_method` inspects it
through host queries: the crate root, an impl item that may carry a trait
reference, or some other item. -/
inductive ParentItem : Type where
  | crateRoot : ParentItem
  | implItem : Bool → ParentItem
  | otherItem : ParentItem
deriving DecidableEq, Repr

/-- `is_trait_method` (missing_const_for_fn.rs lines 118-128): true exactly
when the parent item is an impl that carries a trait reference. -/
def is_trait_method : ParentItem → Bool
  | .implItem hasTraitRef => hasTraitRef
  | _ => false

/-- What one `check_fn` call emits: nothing, the lint diagnostic
(span_lint), or a hard compiler error (sess.span_err, raised when the host
claims min-const-fn status but the eligibility check disagrees). -/
inductive MCFFEmission : Type where
  | noEmission : MCFFEmission
  | lint : Span → String → MCFFEmission
  | compileError : Span → String → MCFFEmission
deriving DecidableEq, Repr

def MSG_CONST_FN : String := "this could be a const_fn"

/-- The tail of `check_fn` (missing_const_for_fn.rs lines 106-114): consult
the host `is_min_const_fn` eligibility result on the function's MIR; on
failure raise an error only when the host already considers the function a
min-const-fn, on success emit the lint. -/
def constnessOutcome (minConstFnResult : Except (Span × String) Unit)
    (tcxIsMinConstFn : Bool) (span : Span) : MCFFEmission :=
  match minConstFnResult with
  | .error (sp, err) =>
    if tcxIsMinConstFn then .compileError sp err else .noEmission
  | .ok _ => .lint span MSG_CONST_FN

/-- `MissingConstForFn::check_fn` (missing_const_for_fn.rs lines 74-116).
The host-owned queries — external-macro origin of the span, entrypoint
status, the parent item, the eligibility result and the host's own
min-const-fn judgement — are inputs. -/
def MissingConstForFn.check_fn (inExternalMacro : Bool)
    (isEntrypointFn : Bool) (parent : ParentItem) (kind : FnKind)
    (minConstFnResult : Except (Span × String) Unit)
    (tcxIsMinConstFn : Bool) (span : Span) : MCFFEmission :=
  if inExternalMacro || isEntrypointFn then .noEmission
  else
    match kind with
    | .ItemFn header =>
      if already_const header then .noEmission
      else constnessOutcome minConstFnResult tcxIsMinConstFn span
    | .Method header =>
      if is_trait_method parent || already_const header then .noEmission
      else constnessOutcome minConstFnResult tcxIsMinConstFn span
    | .Closure => .noEmission

/-! ## Concrete inputs used by the witnesses and counterexamples -/

/-- The concrete anchor extraction of the earliest-anchor example:
satisfied exactly by the numbers one and three. -/
def anchor13 : Nat → Option Nat :=
  fun n => if n = 1 ∨ n = 3 then some n else none

/-- A span not originating from expansion, with trivial context and text. -/
def spanN : Span := ⟨false, 0, []⟩

/-- A span originating from macro expansion. -/
def spanX : Span := ⟨true, 0, []⟩

/-- An else block expression whose block starts with an unlabeled continue;
the block expression's span originates from macro expansion. -/
def c2ElseExpr : Expr :=
  .mk (.blockE (.mk [.semiS (.mk (.continueE none) spanN)] spanN) none) spanX

def c2IfExpr : Expr :=
  .mk (.ifE (.mk .otherE spanN) (.mk [] spanN) (some c2ElseExpr)) spanN

/-- A loop whose body's single statement is an if whose else block starts
with an unlabeled continue; every span but the else expression's, the
loop's included, is free of expansion. -/
def c2Loop : Expr :=
  .mk (.loopE (.mk [.semiS c2IfExpr] spanN) none) spanN

/-- The same loop with the loop expression's own span marked as coming from
expansion. -/
def c2LoopX : Expr :=
  .mk (.loopE (.mk [.semiS c2IfExpr] spanN) none) spanX

/-- A loop whose body's single statement is an if whose then block starts
with an unlabeled continue and that has an else branch. -/
def c6IfExpr : Expr :=
  .mk (.ifE (.mk .otherE spanN)
      (.mk [.semiS (.mk (.continueE none) spanN)] spanN)
      (some (.mk (.blockE (.mk [] spanN) none) spanN))) spanN

def c6Loop : Expr :=
  .mk (.loopE (.mk [.semiS c6IfExpr] spanN) none) spanN

/-- The diagnostic the then-holds-continue shape emits on that loop. -/
def c6Diag : Diagnostic := ⟨spanN, MSG_ELSE_BLOCK_NOT_NEEDED, .Advisory⟩

/-- A no-else nested if whose outer condition is a let conditional. -/
def c7InnerIf : Expr :=
  .mk (.ifE (.mk .otherE spanN) (.mk [] spanN) none) spanN

def c7Then : Block := .mk [.exprS c7InnerIf] spanN

def c7Outer : Expr := .mk (.ifE (.mk .letE spanN) c7Then none) spanN

/-- Block text consisting of an opening brace, a space, a line-comment
marker and a letter, then the closing brace. -/
def commentText : List Char := [lbrace, ' ', '/', '/', 'x', rbrace]

/-- A no-else nested if whose outer then block's text starts, after brace
and whitespace, with a line comment. -/
def c8InnerIf : Expr :=
  .mk (.ifE (.mk .otherE spanN) (.mk [] spanN) none) spanN

def c8Then : Block := .mk [.exprS c8InnerIf] ⟨false, 0, commentText⟩

def c8Outer : Expr := .mk (.ifE (.mk .otherE spanN) c8Then none) spanN

/-- An if with an else block whose sole statement is an inner if and whose
text starts, after brace and whitespace, with a line comment. -/
def c8InnerIf2 : Expr :=
  .mk (.ifE (.mk .otherE spanN) (.mk [] spanN) none) spanN

def c8BlockInner : Block := .mk [.exprS c8InnerIf2] ⟨false, 0, commentText⟩

def c8BlockExpr : Expr := .mk (.blockE c8BlockInner none) spanN

def c8ElseOuter : Expr :=
  .mk (.ifE (.mk .otherE spanN) (.mk [] spanN) (some c8BlockExpr)) spanN

/-- A non-const function header. -/
def hdrNC : FnHeader := ⟨.NotConst⟩

/-- A const function header. -/
def hdrC : FnHeader := ⟨.Const⟩

/-! ## Lemmas about the erosion loops -/

theorem eatTillBrace_of_not_mem {l : List Char} (h : rbrace ∉ l) :
    eatTillBrace l = [] := by
  induction l with
  | nil => rfl
  | cons c cs ih =>
      simp only [List.mem_cons, not_or] at h
      rw [eatTillBrace, if_neg (fun hc => h.1 hc.symm)]
      exact ih h.2

theorem eatTillBrace_append_of_not_mem {l : List Char} (r : List Char)
    (h : rbrace ∉ l) : eatTillBrace (l ++ rbrace :: r) = r := by
  induction l with
  | nil => simp [eatTillBrace]
  | cons c cs ih =>
      simp only [List.mem_cons, not_or] at h
      rw [List.cons_append, eatTillBrace, if_neg (fun hc => h.1 hc.symm)]
      exact ih h.2

theorem eatTrailingWs_eq_dropWhile (l : List Char) :
    eatTrailingWs l = l.dropWhile (fun c => c.isWhitespace) := by
  induction l with
  | nil => rfl
  | cons c cs ih =>
      by_cases hw : c.isWhitespace
      · simp [eatTrailingWs, List.dropWhile, hw, ih]
      · simp [eatTrailingWs, List.dropWhile, hw]

theorem eatTillBrace_suffix (l : List Char) : eatTillBrace l <:+ l := by
  induction l with
  | nil => exact List.nil_suffix
  | cons c cs ih =>
      by_cases hc : c = rbrace
      · rw [eatTillBrace, if_pos hc]
        exact List.suffix_cons c cs
      · rw [eatTillBrace, if_neg hc]
        exact ih.trans (List.suffix_cons c cs)

theorem eatTrailingWs_suffix (l : List Char) : eatTrailingWs l <:+ l := by
  rw [eatTrailingWs_eq_dropWhile]
  exact List.dropWhile_suffix _

/-! ## Claim theorems for the erosion utilities -/

/-- Counterexample to C1: on this input erode_block does not return the two
calls alone; its result starts with a whitespace character, because
erode_from_front strips whitespace only before the opening brace and strips
only newlines, not spaces, after it. -/
theorem C1_erode_block_counterexample :
    erode_block C1input ≠ C1output ∧
    ((erode_block C1input).head?.all fun c => !c.isWhitespace) = false := by
  decide

/-- C1 as amended: applying erode_block to the exact input string of the two
calls wrapped in braces returns the two calls preceded by the single space
that followed the opening brace — a result with no leading brace, no
trailing brace and no trailing whitespace, but with the space after the
opening brace kept, since erode_from_front strips only newlines after the
brace. -/
theorem C1_erode_block_example :
    erode_block C1input = ' ' :: C1output ∧
    ((erode_block C1input).head?.all
        fun c => !(c == lbrace || c == rbrace)) = true ∧
    ((erode_block C1input).getLast?.all
        fun c => !(c.isWhitespace || c == lbrace || c == rbrace)) = true := by
  decide

/-- C5: for every input with no closing brace, erode_from_back returns the
empty string; and for every input containing a closing brace, writing the
input as a prefix followed by its last closing brace and a brace-free
suffix, erode_from_back discards that suffix and the brace, then discards
the prefix's trailing whitespace, keeping the first non-whitespace
character found from the end. -/
theorem C5_erode_from_back_spec (s : List Char) :
    (rbrace ∉ s → erode_from_back s = []) ∧
    (∀ p suf, s = p ++ rbrace :: suf → rbrace ∉ suf →
      erode_from_back s =
        (p.reverse.dropWhile fun c => c.isWhitespace).reverse) := by
  constructor
  · intro h
    have hrev : rbrace ∉ s.reverse := by
      simpa using h
    simp [erode_from_back, eatTillBrace_of_not_mem hrev, eatTrailingWs]
  · intro p suf hs hsuf
    have hrev : s.reverse = suf.reverse ++ rbrace :: p.reverse := by
      subst hs
      simp
    have hsufrev : rbrace ∉ suf.reverse := by
      simpa using hsuf
    rw [erode_from_back, hrev, eatTillBrace_append_of_not_mem _ hsufrev,
      eatTrailingWs_eq_dropWhile]

/-- Witness for C5: a brace-free string erodes to empty, and a string
ending in a closing brace followed by a space erodes to the prefix with
its trailing whitespace removed. -/
theorem C5_erode_from_back_spec_witness :
    erode_from_back ['a', 'b'] = [] ∧
    erode_from_back ['a', ' ', rbrace, ' '] =
      ((['a', ' '].reverse.dropWhile fun c => c.isWhitespace)).reverse :=
  ⟨(C5_erode_from_back_spec ['a', 'b']).1 (by decide),
   (C5_erode_from_back_spec ['a', ' ', rbrace, ' ']).2 ['a', ' '] [' ']
     rfl (by decide)⟩

/-- C9: erode_from_front returns a contiguous suffix of its input,
erode_from_back returns a contiguous prefix of its input, erode_block
returns a contiguous substring of its input, and each of the three
results is no longer than the input. -/
theorem C9_erosion_substring (s : List Char) :
    erode_from_front s <:+ s ∧
    erode_from_back s <+: s ∧
    erode_block s <:+: s ∧
    (erode_from_front s).length ≤ s.length ∧
    (erode_from_back s).length ≤ s.length ∧
    (erode_block s).length ≤ s.length := by
  have hfront : ∀ t : List Char, erode_from_front t <:+ t := by
    intro t
    exact (List.dropWhile_suffix _).trans
      ((List.dropWhile_suffix _).trans (List.dropWhile_suffix _))
  have hback : ∀ t : List Char, erode_from_back t <+: t := by
    intro t
    have h1 : eatTrailingWs (eatTillBrace t.reverse) <:+ t.reverse :=
      (eatTrailingWs_suffix _).trans (eatTillBrace_suffix _)
    have h2 := List.reverse_prefix.mpr h1
    rwa [List.reverse_reverse] at h2
  have hblock : erode_block s <:+: s :=
    List.infix_iff_prefix_suffix.mpr
      ⟨erode_from_front s, hback _, hfront _⟩
  exact ⟨hfront s, hback s, hblock, (hfront s).length_le,
    (hback s).length_le, hblock.length_le⟩

/-! ## Claim theorems for the matcher and the label rule -/

/-- C3: the sibling-sequence search used by the needless-continue patterns,
for a pattern of shape ZeroOrMore(Wildcard), Anchor,
Capture(ZeroOrMore(Wildcard)), fails exactly when no sibling satisfies the
anchor; on success it anchors at the earliest sibling satisfying the
anchor — the list splits as a fail-only prefix, the anchored sibling, and
the captured tail, which is exactly the siblings after the anchor; and on
four siblings of which only the second and fourth satisfy the anchor, the
capture is the last two siblings, never the empty list. -/
theorem C3_seqSearch_earliest {α β : Type} (f : α → Option β) (l : List α) :
    (seqSearch f l = none ↔ ∀ x ∈ l, f x = none) ∧
    (∀ b t, seqSearch f l = some (b, t) →
      ∃ pre a post, l = pre ++ a :: post ∧ f a = some b ∧ t = post ∧
        ∀ x ∈ pre, f x = none) ∧
    (∀ s0 s1 s2 s3 : α, ∀ b1 : β, f s0 = none → f s1 = some b1 →
      f s2 = none → (f s3).isSome = true →
      seqSearch f [s0, s1, s2, s3] = some (b1, [s2, s3])) := by
  refine ⟨?_, ?_, ?_⟩
  · induction l with
    | nil => simp [seqSearch]
    | cons x xs ih =>
        cases hf : f x with
        | some b => simp [seqSearch, hf]
        | none => simp [seqSearch, hf, ih]
  · induction l with
    | nil => intro b t h; simp [seqSearch] at h
    | cons x xs ih =>
        intro b t h
        cases hf : f x with
        | some b0 =>
            simp only [seqSearch, hf, Option.some.injEq, Prod.mk.injEq] at h
            obtain ⟨hb, ht⟩ := h
            exact ⟨[], x, xs, by simp, by rw [hf, hb], ht.symm, by simp⟩
        | none =>
            simp only [seqSearch, hf] at h
            obtain ⟨pre, a, post, hl, ha, ht, hpre⟩ := ih b t h
            refine ⟨x :: pre, a, post, by simp [hl], ha, ht, ?_⟩
            intro y hy
            rcases List.mem_cons.mp hy with rfl | hy2
            · exact hf
            · exact hpre y hy2
  · intro s0 s1 s2 s3 b1 h0 h1 _ _
    simp [seqSearch, h0, h1]

/-- Witness for C3: on the siblings zero to three, of which only one and
three satisfy the anchor, the search anchors at one and captures the last
two siblings. -/
theorem C3_seqSearch_earliest_witness :
    seqSearch anchor13 [0, 1, 2, 3] = some (1, [2, 3]) :=
  (C3_seqSearch_earliest anchor13 [0, 1, 2, 3]).2.2 0 1 2 3 1
    (by decide) (by decide) (by decide) (by decide)

/-- C4: the label comparison of the redundant-continue rule accepts an
unlabeled continue regardless of the loop's label, rejects a labeled
continue paired with an unlabeled loop, and when both are labeled accepts
exactly when the two identifiers are identical. -/
theorem C4_compare_labels (ll : Option Label) (x y : Label) :
    compare_labels ll none = true ∧
    compare_labels none (some y) = false ∧
    (compare_labels (some x) (some y) = true ↔ x.ident = y.ident) := by
  refine ⟨?_, rfl, ?_⟩
  · cases ll <;> rfl
  · simp [compare_labels]

/-- Witness for C4: concrete label pairings for each of the three cases. -/
theorem C4_compare_labels_witness :
    compare_labels (some ⟨"a"⟩) none = true ∧
    compare_labels none (some ⟨"b"⟩) = false ∧
    compare_labels (some ⟨"a"⟩) (some ⟨"a"⟩) = true :=
  ⟨(C4_compare_labels (some ⟨"a"⟩) ⟨"a"⟩ ⟨"a"⟩).1,
   (C4_compare_labels none ⟨"a"⟩ ⟨"b"⟩).2.1,
   (C4_compare_labels (some ⟨"a"⟩) ⟨"a"⟩ ⟨"a"⟩).2.2.mpr rfl⟩

/-! ## Claim theorems for the needless-continue guards -/

/-- Counterexample to C2: pattern 1 matches this loop and the matched else
span originates from macro expansion, yet a suggestion is emitted for the
expression — the code consults only the visited expression's own span. -/
theorem C2_expansion_counterexample :
    ((needless_continue_pattern_1 c2Loop).map
        fun r => r.else_expr.span.fromExpansion) = some true ∧
    NeedlessContinue.check_expr c2Loop =
      [⟨spanX, MSG_REDUNDANT_ELSE_BLOCK, .Advisory⟩] := by
  constructor
  · rfl
  · rfl

/-- C2 as amended: the macro-expansion guard is applied to the span of the
visited expression itself — whenever the expression handed to check_expr
has a span originating from macro expansion, no suggestion is emitted for
it by either shape; the expansion origin of the matched else and then
spans is not consulted. -/
theorem C2_expansion_guard (e : Expr)
    (h : e.span.fromExpansion = true) :
    NeedlessContinue.check_expr e = [] := by
  simp [NeedlessContinue.check_expr, h]

/-- Witness for the amended C2: a loop expression whose span is from
expansion produces no diagnostics. -/
theorem C2_expansion_guard_witness :
    NeedlessContinue.check_expr c2LoopX = [] :=
  C2_expansion_guard c2LoopX rfl

/-- C6: the then-holds-continue shape never emits a machine-applicable
suggestion — every diagnostic check_and_warn_in_then_block produces is
advisory only, its rewrite proposal being carried as help text. -/
theorem C6_then_block_advisory (e : Expr) (d : Diagnostic)
    (h : check_and_warn_in_then_block e = some d) :
    d.applicability = Applicability.Advisory := by
  unfold check_and_warn_in_then_block at h
  split at h
  · split at h
    · injection h with h1
      subst h1
      rfl
    · cases h
  · cases h

/-- Witness for C6: on a concrete matching loop the shape emits a
diagnostic and it is advisory. -/
theorem C6_then_block_advisory_witness :
    check_and_warn_in_then_block c6Loop = some c6Diag ∧
    c6Diag.applicability = Applicability.Advisory :=
  ⟨rfl, C6_then_block_advisory c6Loop c6Diag rfl⟩

/-! ## Claim theorems for the collapsible-conditional guards -/

/-- Every diagnostic of the else-contains-if branch carries that branch's
message. -/
theorem checkElseBranch_message (e : Expr) (d : Diagnostic)
    (h : d ∈ CollapsibleIf.checkElseBranch e) :
    d.message = MSG_COLLAPSIBLE_ELSE := by
  unfold CollapsibleIf.checkElseBranch at h
  split at h
  · split at h
    · rw [List.mem_singleton] at h
      subst h
      rfl
    · cases h
  · cases h

/-- When the else block of a matched else-contains-if shape starts with a
comment, its branch emits nothing. -/
theorem checkElseBranch_comment (e : Expr) (r : PatIfElseResult)
    (hp : pat_if_else e = some r)
    (hc : block_starts_with_comment r.block_inner = true) :
    CollapsibleIf.checkElseBranch e = [] := by
  unfold CollapsibleIf.checkElseBranch
  rw [hp]
  simp [hc]

/-- A diagnostic of check_expr either carries the no-else shape's message
or belongs to the else-contains-if branch. -/
theorem check_expr_mem_cases (e : Expr) (d : Diagnostic)
    (h : d ∈ CollapsibleIf.check_expr e) :
    d.message = MSG_COLLAPSIBLE_IF ∨
      d ∈ CollapsibleIf.checkElseBranch e := by
  unfold CollapsibleIf.check_expr at h
  split at h
  · cases h
  · split at h
    · split at h
      · cases h
      · split at h
        · cases h
        · rw [List.mem_append] at h
          rcases h with h | h
          · left
            split at h
            · rw [List.mem_singleton] at h
              subst h
              rfl
            · cases h
          · right
            exact h
    · right
      exact h

/-- When the no-else shape matches and its outer then block starts with a
comment, every diagnostic of check_expr comes from the else-contains-if
branch. -/
theorem check_expr_comment_then (e : Expr) (r : PatIfWithoutElseResult)
    (hp : pat_if_without_else e = some r)
    (hc : block_starts_with_comment r.then_ = true) (d : Diagnostic)
    (hd : d ∈ CollapsibleIf.check_expr e) :
    d ∈ CollapsibleIf.checkElseBranch e := by
  unfold CollapsibleIf.check_expr at hd
  split at hd
  · cases hd
  · simp only [hp] at hd
    split at hd
    · cases hd
    · split at hd
      · cases hd
      · simp only [hc, Bool.not_true, Bool.false_and] at hd
        simpa using hd

/-- C8: for both collapsible-conditional shapes, when the relevant block's
source text, stripped of leading whitespace and opening braces, begins
with a line- or block-comment marker, no suggestion carrying that shape's
message is emitted. -/
theorem C8_comment_guard (e : Expr) :
    (∀ r, pat_if_without_else e = some r →
      block_starts_with_comment r.then_ = true →
      (CollapsibleIf.check_expr e).filter
          (fun d => d.message == MSG_COLLAPSIBLE_IF) = []) ∧
    (∀ r, pat_if_else e = some r →
      block_starts_with_comment r.block_inner = true →
      (CollapsibleIf.check_expr e).filter
          (fun d => d.message == MSG_COLLAPSIBLE_ELSE) = []) := by
  constructor
  · intro r hp hc
    rw [List.filter_eq_nil_iff]
    intro d hd
    have hmsg :=
      checkElseBranch_message e d (check_expr_comment_then e r hp hc d hd)
    simp only [hmsg]
    decide
  · intro r hp hc
    rw [List.filter_eq_nil_iff]
    intro d hd
    rcases check_expr_mem_cases e d hd with hmsg | hmem
    · simp only [hmsg]
      decide
    · rw [checkElseBranch_comment e r hp hc] at hmem
      cases hmem

/-- Witness for C8: on concrete expressions of each shape whose relevant
block text starts with a comment, no suggestion with the shape's message
is emitted. -/
theorem C8_comment_guard_witness :
    (CollapsibleIf.check_expr c8Outer).filter
        (fun d => d.message == MSG_COLLAPSIBLE_IF) = [] ∧
    (CollapsibleIf.check_expr c8ElseOuter).filter
        (fun d => d.message == MSG_COLLAPSIBLE_ELSE) = [] :=
  ⟨(C8_comment_guard c8Outer).1
      ⟨.mk .otherE spanN, .mk .otherE spanN, .mk [] spanN, c8InnerIf, c8Then⟩
      rfl (by decide),
   (C8_comment_guard c8ElseOuter).2
      ⟨c8InnerIf2, c8BlockInner, c8BlockExpr⟩ rfl (by decide)⟩

/-- C7: for every expression matching the no-else nesting shape, when
either the outer or the inner condition is a pattern-binding (let)
conditional, the collapsible-conditional rule emits no suggestion at all
for that expression. -/
theorem C7_let_guard (e : Expr) (r : PatIfWithoutElseResult)
    (hp : pat_if_without_else e = some r)
    (hl : isLetExpr r.check = true ∨ isLetExpr r.check_inner = true) :
    CollapsibleIf.check_expr e = [] := by
  by_cases h1 : isLetExpr r.check
  · simp [CollapsibleIf.check_expr, hp, h1]
  · rcases hl with hl | hl
    · exact absurd hl h1
    · simp [CollapsibleIf.check_expr, hp, h1, hl]

/-- Witness for C7: the concrete let-conditioned nesting produces no
diagnostics. -/
theorem C7_let_guard_witness : CollapsibleIf.check_expr c7Outer = [] :=
  C7_let_guard c7Outer
    ⟨.mk .letE spanN, .mk .otherE spanN, .mk [] spanN, c7InnerIf, c7Then⟩
    rfl (Or.inl rfl)

/-! ## Claim theorem for the missing-const-for-fn check -/

/-- The eligibility tail emits the lint exactly when the host eligibility
check succeeds. -/
theorem constnessOutcome_lint_iff (res : Except (Span × String) Unit)
    (tcx : Bool) (sp : Span) :
    constnessOutcome res tcx sp = MCFFEmission.lint sp MSG_CONST_FN ↔
      res = Except.ok () := by
  cases res with
  | ok u =>
      cases u
      simp [constnessOutcome]
  | error pr =>
      obtain ⟨sp1, err⟩ := pr
      cases tcx <;> simp [constnessOutcome]

/-- C10: the missing-const-for-fn check emits no lint diagnostic for a span
inside an external macro, for an entrypoint function, for an item function
or method already declared const, or for a method of a trait impl; and for
an item function or inherent method with none of these, it emits the lint
diagnostic exactly when the host minimum-const-fn eligibility check
reports the function eligible. -/
theorem C10_check_fn_spec (em ep : Bool) (parent : ParentItem)
    (kind : FnKind) (res : Except (Span × String) Unit) (tcx : Bool)
    (sp : Span) :
    (em = true →
      MissingConstForFn.check_fn em ep parent kind res tcx sp =
        MCFFEmission.noEmission) ∧
    (ep = true →
      MissingConstForFn.check_fn em ep parent kind res tcx sp =
        MCFFEmission.noEmission) ∧
    (∀ h, kind = FnKind.ItemFn h → already_const h = true →
      MissingConstForFn.check_fn em ep parent kind res tcx sp =
        MCFFEmission.noEmission) ∧
    (∀ h, kind = FnKind.Method h →
      is_trait_method parent = true ∨ already_const h = true →
      MissingConstForFn.check_fn em ep parent kind res tcx sp =
        MCFFEmission.noEmission) ∧
    (em = false → ep = false →
      ((∃ h, kind = FnKind.ItemFn h ∧ already_const h = false) ∨
       (∃ h, kind = FnKind.Method h ∧ is_trait_method parent = false ∧
          already_const h = false)) →
      (MissingConstForFn.check_fn em ep parent kind res tcx sp =
          MCFFEmission.lint sp MSG_CONST_FN ↔ res = Except.ok ())) := by
  refine ⟨?_, ?_, ?_, ?_, ?_⟩
  · intro h
    simp [MissingConstForFn.check_fn, h]
  · intro h
    simp [MissingConstForFn.check_fn, h]
  · intro h hk hc
    subst hk
    simp [MissingConstForFn.check_fn, hc]
  · intro h hk hg
    subst hk
    rcases hg with hg | hg <;>
      simp [MissingConstForFn.check_fn, hg]
  · intro hem hep hcase
    subst hem
    subst hep
    rcases hcase with ⟨h, rfl, hconst⟩ | ⟨h, rfl, htr, hconst⟩
    · simpa [MissingConstForFn.check_fn, hconst] using
        constnessOutcome_lint_iff res tcx sp
    · simpa [MissingConstForFn.check_fn, htr, hconst] using
        constnessOutcome_lint_iff res tcx sp

/-- Witness for C10: each suppression case at a concrete input, and on an
eligible plain function the lint is emitted. -/
theorem C10_check_fn_spec_witness :
    MissingConstForFn.check_fn true false .otherItem (.ItemFn hdrNC)
        (.ok ()) false spanN = MCFFEmission.noEmission ∧
    MissingConstForFn.check_fn false true .otherItem (.ItemFn hdrNC)
        (.ok ()) false spanN = MCFFEmission.noEmission ∧
    MissingConstForFn.check_fn false false .otherItem (.ItemFn hdrC)
        (.ok ()) false spanN = MCFFEmission.noEmission ∧
    MissingConstForFn.check_fn false false (.implItem true)
        (.Method hdrNC) (.ok ()) false spanN = MCFFEmission.noEmission ∧
    MissingConstForFn.check_fn false false .otherItem (.ItemFn hdrNC)
        (.ok ()) false spanN = MCFFEmission.lint spanN MSG_CONST_FN :=
  ⟨(C10_check_fn_spec true false .otherItem (.ItemFn hdrNC)
      (.ok ()) false spanN).1 rfl,
   (C10_check_fn_spec false true .otherItem (.ItemFn hdrNC)
      (.ok ()) false spanN).2.1 rfl,
   (C10_check_fn_spec false false .otherItem (.ItemFn hdrC)
      (.ok ()) false spanN).2.2.1 hdrC rfl (by decide),
   (C10_check_fn_spec false false (.implItem true) (.Method hdrNC)
      (.ok ()) false spanN).2.2.2.1 hdrNC rfl (Or.inl rfl),
   ((C10_check_fn_spec false false .otherItem (.ItemFn hdrNC)
      (.ok ()) false spanN).2.2.2.2 rfl rfl
      (Or.inl ⟨hdrNC, rfl, by decide⟩)).mpr rfl⟩

end Clippy
